import Mathlib

/-!
Verification development for the magicblock-sync repository.

The definitions below are a shallow embedding of the Rust sources:
bytes are modelled as natural numbers, byte vectors as lists, the
subscription HashSet as a Finset of byte lists, and fallible lookups as
Option values. Machine-integer widths are irrelevant here: the code only
compares bytes and slot values for equality and order, never overflows.
-/

namespace MagicblockSync

/-! ## Protocol constants (src/consts.rs, src/lib.rs) -/

/-- Size of a Solana public key in bytes (consts.rs PUBKEY_LEN). -/
def PUBKEY_LEN : Nat := 32

/-- Delegation program pubkey bytes (consts.rs DELEGATION_PROGRAM_PUBKEY):
the base58 decode of the program address string
DELeGGvXpWV2fqJUhqcF5ZSYMS4JTLjteaAMARRSaeSh, computed by bs58 decode in
consts.rs. The bytes agree with the delegation program account key (index
13, the program the log messages show invoked) of the repository's
real-transaction test. Note that lib.rs hard-codes a DIFFERENT array for
its own copy of this constant — see the Legacy namespace. -/
def DELEGATION_PROGRAM_PUBKEY : List Nat :=
  [181, 183, 0, 225, 242, 87, 58, 192, 204, 6, 34, 1, 52, 74, 207, 151,
   184, 53, 6, 235, 140, 229, 25, 152, 204, 98, 126, 24, 147, 128, 167, 62]

/-- Size of a delegation record account in bytes (consts.rs). -/
def DELEGATION_RECORD_SIZE : Nat := 96

/-- Maximum pending subscription/unsubscription requests (consts.rs). -/
def MAX_PENDING_REQUESTS : Nat := 256

/-- Maximum pending account/transaction updates: the capacity of the
downstream update queue (consts.rs). -/
def MAX_PENDING_UPDATES : Nat := 8192

/-- Instruction discriminator byte for undelegate operations (consts.rs). -/
def UNDELEGATE_DISCRIMINATOR : Nat := 3

/-- Length of an instruction discriminator (consts.rs). -/
def DISCRIMINATOR_LEN : Nat := 8

/-- Index of the delegation record account in undelegate instruction accounts
(consts.rs DELEGATION_RECORD_ACCOUNT_INDEX). -/
def DELEGATION_RECORD_ACCOUNT_INDEX : Nat := 6

/-- Feed health-check timeout in seconds (connect.rs, Duration from_secs 5). -/
def HEALTH_CHECK_TIMEOUT_SECS : Nat := 5

/-! ## Basic data model (src/types.rs) -/

/-- A Solana pubkey: exactly 32 bytes (types.rs, type Pubkey = [u8; 32]). -/
abbrev Pubkey := { l : List Nat // l.length = PUBKEY_LEN }

/-- Fallible conversion of a byte slice into a Pubkey, mirroring the Rust
TryFrom of a slice into a [u8; 32] array: succeeds exactly when the slice is
32 bytes long. -/
def Pubkey.tryFrom (l : List Nat) : Option Pubkey :=
  if h : l.length = PUBKEY_LEN then some ⟨l, h⟩ else none

/-! ## Transaction frame shape (helius_laserstream protobuf types, as the
fields are accessed by this repository) -/

/-- One compiled instruction of a transaction message. -/
structure CompiledInstruction where
  program_id_index : Nat
  accounts : List Nat
  data : List Nat

/-- A transaction message: the account list and the instruction list. -/
structure Message where
  account_keys : List (List Nat)
  instructions : List CompiledInstruction

/-- A raw transaction; the message is optional in the wire format. -/
structure Transaction where
  message : Option Message

/-- Transaction status metadata; only the presence of an execution error is
inspected by this repository, so the error payload is modelled as Unit. -/
structure TransactionStatusMeta where
  err : Option Unit

/-- Transaction info frame: raw transaction plus status metadata. -/
structure SubscribeUpdateTransactionInfo where
  transaction : Option Transaction
  meta : Option TransactionStatusMeta

/-- A transaction frame from the feed. -/
structure SubscribeUpdateTransaction where
  slot : Nat
  transaction : Option SubscribeUpdateTransactionInfo

/-! ## Instruction decoder (src/transaction_syncer.rs) -/

/-- Rust slice split_at_checked: Some (prefix, rest) when the split point is
within bounds, None otherwise. -/
def split_at_checked (n : Nat) (l : List Nat) : Option (List Nat × List Nat) :=
  if n ≤ l.length then some (l.take n, l.drop n) else none

/-- The is_undelegate closure of transaction_syncer.rs process_update: resolve
the program id through the account list, require the delegation program,
split off the 8-byte discriminator, require its first byte to be the
undelegate tag, then resolve the record account index into the account list. -/
def is_undelegate (accounts : List (List Nat)) (ix : CompiledInstruction) :
    Option (List Nat) :=
  (accounts[ix.program_id_index]?).bind fun program_id =>
    if program_id = DELEGATION_PROGRAM_PUBKEY then
      (split_at_checked DISCRIMINATOR_LEN ix.data).bind fun pr =>
        if pr.1.headD 0 = UNDELEGATE_DISCRIMINATOR then
          (ix.accounts[DELEGATION_RECORD_ACCOUNT_INDEX]?).bind fun idx =>
            accounts[idx]?
        else none
    else none

/-- transaction_syncer.rs process_update: extract the undelegated record
pubkeys of a transaction frame, in instruction order. Requires the
transaction info, raw transaction, metadata and message to be present, and
the metadata to carry no execution error; then filters the instructions
through is_undelegate and converts each resolved byte slice to a Pubkey. -/
def process_update (txn : SubscribeUpdateTransaction) : List Pubkey :=
  match txn.transaction with
  | none => []
  | some info =>
    match info.transaction, info.meta with
    | some t, some m =>
      if m.err.isNone then
        match t.message with
        | some message =>
          (message.instructions.filterMap
            (is_undelegate message.account_keys)).filterMap Pubkey.tryFrom
        | none => []
      else []
    | some _, none => []
    | none, _ => []

/-! ## Reference decoder, worded from the claim

The following two definitions restate the claimed reference procedure for the
instruction decoder in the claim's own terms, to be compared with the source
embedding process_update above. -/

/-- Reference per-instruction rule, from the claim's words: the identifier is
emitted iff the program-id index resolves in the account list to the fixed
delegation program identifier, the data is at least 8 bytes with first byte
equal to the undelegate tag 3, the account-index list has a position 6 that
resolves in-range into the account list, and the resolved bytes are exactly
32 bytes. -/
def refInstructionEmit (accounts : List (List Nat)) (ix : CompiledInstruction) :
    Option Pubkey :=
  if accounts[ix.program_id_index]? = some DELEGATION_PROGRAM_PUBKEY
      ∧ DISCRIMINATOR_LEN ≤ ix.data.length
      ∧ ix.data.headD 0 = UNDELEGATE_DISCRIMINATOR then
    match ix.accounts[DELEGATION_RECORD_ACCOUNT_INDEX]? with
    | some idx =>
      match accounts[idx]? with
      | some bytes => Pubkey.tryFrom bytes
      | none => none
    | none => none
  else none

/-- Reference decoder, from the claim's words: the transaction must carry no
execution error (status must be present and clear), then each instruction in
order contributes its identifier iff refInstructionEmit accepts it. -/
def refProcessUpdate (txn : SubscribeUpdateTransaction) : List Pubkey :=
  match txn.transaction with
  | none => []
  | some info =>
    match info.transaction, info.meta with
    | some t, some m =>
      if m.err.isNone then
        match t.message with
        | some message =>
          message.instructions.filterMap (refInstructionEmit message.account_keys)
        | none => []
      else []
    | some _, none => []
    | none, _ => []

/-! ## Account and slot frame shapes (laserstream protobuf, fields as used) -/

/-- Raw account payload of an account frame. -/
structure Account where
  pubkey : List Nat
  data : List Nat

/-- An account-state frame from the feed. -/
structure SubscribeUpdateAccount where
  account : Option Account
  slot : Nat

/-- A slot-advance frame from the feed. -/
structure SubscribeUpdateSlot where
  slot : Nat

/-- The one-of payload of a feed frame; the catch-all case stands for every
other frame kind (ping, pong, block, entry, ...) that the engine ignores. -/
inductive UpdateOneof where
  | account (acc : SubscribeUpdateAccount)
  | slot (s : SubscribeUpdateSlot)
  | transaction (txn : SubscribeUpdateTransaction)
  | other

/-- A decoded feed frame; the payload is optional in the wire format. -/
structure SubscribeUpdate where
  update_oneof : Option UpdateOneof

/-- One item of the feed: a decoded frame or a frame-level transport error
(the LaserstreamError payload is opaque to this repository, modelled as Nat). -/
inductive LaserResult where
  | ok (u : SubscribeUpdate)
  | err (e : Nat)

/-! ## Domain events and engine state (src/types.rs, src/syncer.rs) -/

/-- Account updates broadcast to subscribers (types.rs AccountUpdate). -/
inductive AccountUpdate where
  | Delegated (record : Pubkey) (data : List Nat) (slot : Nat)
  | Undelegated (record : Pubkey) (slot : Nat)
  | SyncTerminated

/-- True exactly on the SyncTerminated event. -/
def isTerminated : AccountUpdate → Bool
  | .SyncTerminated => true
  | _ => false

/-- Subscription-management requests (syncer.rs SyncRequest). The oneshot
reply channel of Subscribe is modelled by the Option Nat reply value that
handle_request returns. -/
inductive SyncRequest where
  | Subscribe (record : Pubkey)
  | Unsubscribe (record : Pubkey)

/-- Engine state (syncer.rs DlpSyncer): the subscription set and the
current slot. The stream and channels live outside the pure state. -/
structure DlpSyncer where
  subscriptions : Finset (List Nat)
  slot : Nat

/-- Initial engine state as built by DlpSyncer::start: empty subscription
set, slot 0. -/
def initSyncer : DlpSyncer := { subscriptions := ∅, slot := 0 }

/-- syncer.rs handle_request: Subscribe inserts the record and replies with
the current slot (the returned Option Nat models the value sent through the
oneshot reply channel); Unsubscribe removes the record and replies nothing. -/
def handle_request (s : DlpSyncer) (req : SyncRequest) : DlpSyncer × Option Nat :=
  match req with
  | .Subscribe record =>
    ({ s with subscriptions := insert record.1 s.subscriptions }, some s.slot)
  | .Unsubscribe record =>
    ({ s with subscriptions := s.subscriptions.erase record.1 }, none)

/-- syncer.rs handle_account_update: require the account payload, require a
32-byte pubkey, require current membership in the subscription set, convert
to a Pubkey and emit a Delegated event with the raw data bytes and the
frame's slot. The returned Option models the attempted try_send. -/
def handle_account_update (subs : Finset (List Nat))
    (acc : SubscribeUpdateAccount) : Option AccountUpdate :=
  match acc.account with
  | none => none
  | some account =>
    if account.pubkey.length ≠ PUBKEY_LEN then none
    else if account.pubkey ∉ subs then none
    else
      match Pubkey.tryFrom account.pubkey with
      | some record => some (.Delegated record account.data acc.slot)
      | none => none

/-- syncer.rs handle_transaction_update: for every record decoded by
process_update, attempt to send an Undelegated event with the frame's slot.
The subscription set is not consulted. -/
def handle_transaction_update (txn : SubscribeUpdateTransaction) :
    List AccountUpdate :=
  (process_update txn).map fun record => .Undelegated record txn.slot

/-- syncer.rs handle_update: a frame-level error is logged and ignored; a
frame without payload is ignored; account frames go to handle_account_update,
slot frames overwrite the current slot, transaction frames go to
handle_transaction_update, everything else is ignored. Returns the
post-state and the list of events the handler attempts to send. -/
def handle_update (s : DlpSyncer) (result : LaserResult) :
    DlpSyncer × List AccountUpdate :=
  match result with
  | .err _ => (s, [])
  | .ok u =>
    match u.update_oneof with
    | none => (s, [])
    | some (.account acc) => (s, (handle_account_update s.subscriptions acc).toList)
    | some (.slot sl) => ({ s with slot := sl.slot }, [])
    | some (.transaction txn) => (s, handle_transaction_update txn)
    | some .other => (s, [])

/-! ## The dispatch loop (syncer.rs run)

The tokio select loop serves whichever source yields next; a run of the loop
is therefore modelled by an arbitrary interleaving of feed items and
requests, processed in order. -/

/-- One input served by an iteration of the select loop. -/
inductive EngineInput where
  | frame (r : LaserResult)
  | request (req : SyncRequest)

/-- One loop iteration: dispatch the input to its handler. Requests emit no
downstream events (the subscribe reply travels on its own oneshot channel). -/
def step (s : DlpSyncer) (i : EngineInput) : DlpSyncer × List AccountUpdate :=
  match i with
  | .frame r => handle_update s r
  | .request req => ((handle_request s req).1, [])

/-- Run the loop over a finite interleaving of inputs, collecting the final
state and the concatenated event emissions. -/
def runSteps (s : DlpSyncer) : List EngineInput → DlpSyncer × List AccountUpdate
  | [] => (s, [])
  | i :: rest =>
    let out := step s i
    let res := runSteps out.1 rest
    (res.1, out.2 ++ res.2)

/-- syncer.rs run: loop until both sources are exhausted, then send exactly
one SyncTerminated event (best effort; the send result is discarded). The
returned list is the sequence of events the engine attempts to deliver. -/
def run (s : DlpSyncer) (inputs : List EngineInput) : List AccountUpdate :=
  (runSteps s inputs).2 ++ [.SyncTerminated]

/-- The slot value carried by an input, when it is a slot-advance frame. -/
def slotOf : EngineInput → Option Nat
  | .frame (.ok u) =>
    match u.update_oneof with
    | some (.slot sl) => some sl.slot
    | _ => none
  | _ => none

/-- Subscription history mark of an input for a given key: some true for a
Subscribe of that key, some false for an Unsubscribe of that key, none
otherwise. -/
def keySubMark (k : List Nat) : EngineInput → Option Bool
  | .request (.Subscribe r) => if r.1 = k then some true else none
  | .request (.Unsubscribe r) => if r.1 = k then some false else none
  | _ => none

/-- The subscribe/unsubscribe history of a key across an input sequence. -/
def subTrace (k : List Nat) (inputs : List EngineInput) : List Bool :=
  inputs.filterMap (keySubMark k)

/-! ## Caller-side subscribe (src/channels.rs)

channels.rs subscribe sends a Subscribe request through the bounded mpsc
channel and awaits the oneshot reply. When the engine task is still running
it processes the request via handle_request; when the engine has stopped,
the mpsc send or the oneshot await fails and the call resolves to none.
The Option DlpSyncer argument models whether the engine is still running. -/
def subscribe (engine : Option DlpSyncer) (record : Pubkey) :
    Option Nat × Option DlpSyncer :=
  match engine with
  | none => (none, none)
  | some s =>
    let res := handle_request s (.Subscribe record)
    (res.2, some res.1)

/-! ## Feed establishment (src/connect.rs) -/

/-- Errors of the synchronization service (types.rs DlpSyncError); the
LaserstreamError payload is opaque, modelled as Nat. -/
inductive DlpSyncError where
  | Connection (msg : String)
  | LaserStream (e : Nat)

/-- Outcome of waiting (with the 5-second timeout) for the first frame of a
freshly opened stream: the timer can elapse first, the stream can close
before yielding, or the stream yields a transport/decode error or a frame. -/
inductive FirstFrameOutcome where
  | timeout
  | closed
  | error (e : Nat)
  | frame (u : SubscribeUpdate)

/-- connect.rs connect, after opening the stream: the liveness ping write can
fail (pingResult carries some error), else the bounded wait for the first
frame decides the outcome exactly as the source maps it. -/
def connect (pingResult : Option Nat) (first : FirstFrameOutcome) :
    Except DlpSyncError Unit :=
  match pingResult with
  | some e => .error (.LaserStream e)
  | none =>
    match first with
    | .timeout => .error (.Connection "health check timed out")
    | .closed => .error (.Connection "stream closed before first update")
    | .error e => .error (.LaserStream e)
    | .frame _ => .ok ()

/-! ## Legacy monolithic implementation (src/lib.rs)

lib.rs carries an older, self-contained copy of the syncer with its own
constants and inline decoding. It is embedded separately here so that its
behavior can be compared with the refactored modules. -/

namespace Legacy

/-- lib.rs DELEGATION_PROGRAM_PUBKEY: the hard-coded 32-byte array of the
legacy implementation. These bytes are NOT the base58 decode of the program
address string (they encode a different address entirely), so they differ
from the consts.rs constant the refactored decoder compares against. -/
def DELEGATION_PROGRAM_PUBKEY : List Nat :=
  [31, 53, 226, 191, 87, 11, 233, 198, 246, 12, 164, 36, 215, 66, 119, 191,
   169, 92, 87, 72, 207, 12, 78, 46, 180, 166, 193, 92, 63, 34, 74, 41]

/-- lib.rs UNDELEGATE_IX_DISCRIMINATOR. -/
def UNDELEGATE_IX_DISCRIMINATOR : Nat := 3

/-- lib.rs DELEGATION_RECORD_IX_INDEX. -/
def DELEGATION_RECORD_IX_INDEX : Nat := 6

/-- The inline filter closure of lib.rs handle_transaction_update; it
compares the resolved program id against the legacy hard-coded bytes. -/
def txFilter (accounts : List (List Nat)) (ix : CompiledInstruction) :
    Option (List Nat) :=
  (accounts[ix.program_id_index]?).bind fun program =>
    if program = DELEGATION_PROGRAM_PUBKEY then
      (split_at_checked DISCRIMINATOR_LEN ix.data).bind fun tag =>
        if tag.1.headD 0 = UNDELEGATE_IX_DISCRIMINATOR then
          (ix.accounts[DELEGATION_RECORD_IX_INDEX]?).bind fun i =>
            accounts[i]?
        else none
    else none

/-- The record identifiers produced by lib.rs handle_transaction_update:
extract the message of a successful transaction, run the inline filter over
the instructions and convert each hit to a Pubkey (skipping, via continue,
slices that are not 32 bytes). -/
def undelegations (txn : SubscribeUpdateTransaction) : List Pubkey :=
  match txn.transaction with
  | none => []
  | some info =>
    match info.transaction, info.meta with
    | some t, some m =>
      if m.err.isNone then
        match t.message with
        | some message =>
          (message.instructions.filterMap
            (txFilter message.account_keys)).filterMap Pubkey.tryFrom
        | none => []
      else []
    | some _, none => []
    | none, _ => []

/-- lib.rs handle_transaction_update: one Undelegated event per decoded
record, carrying the frame's slot. -/
def handle_transaction_update (txn : SubscribeUpdateTransaction) :
    List AccountUpdate :=
  (undelegations txn).map fun record => .Undelegated record txn.slot

/-- lib.rs handle_account_update: require the account payload, require
membership in the subscription set FIRST, then require a 32-byte pubkey,
then convert and emit a Delegated event. Note the membership and length
checks come in the opposite order from syncer.rs. -/
def handle_account_update (subs : Finset (List Nat))
    (acc : SubscribeUpdateAccount) : Option AccountUpdate :=
  match acc.account with
  | none => none
  | some account =>
    if account.pubkey ∈ subs then
      if account.pubkey.length = PUBKEY_LEN then
        match Pubkey.tryFrom account.pubkey with
        | some record => some (.Delegated record account.data acc.slot)
        | none => none
      else none
    else none

end Legacy

/-! ## The decoding procedure, parametrized by the program identifier

lib.rs and transaction_syncer.rs implement the same per-instruction
procedure but compare the resolved program id against different constants.
The parametrized form below states that relation precisely. -/

/-- The per-instruction undelegation filter common to both implementations,
parametrized by the program identifier bytes it matches against. -/
def filterWith (prog : List Nat) (accounts : List (List Nat))
    (ix : CompiledInstruction) : Option (List Nat) :=
  (accounts[ix.program_id_index]?).bind fun program_id =>
    if program_id = prog then
      (split_at_checked DISCRIMINATOR_LEN ix.data).bind fun pr =>
        if pr.1.headD 0 = UNDELEGATE_DISCRIMINATOR then
          (ix.accounts[DELEGATION_RECORD_ACCOUNT_INDEX]?).bind fun idx =>
            accounts[idx]?
        else none
    else none

/-- The transaction decoding common to both implementations, parametrized by
the program identifier bytes. -/
def undelegationsWith (prog : List Nat) (txn : SubscribeUpdateTransaction) :
    List Pubkey :=
  match txn.transaction with
  | none => []
  | some info =>
    match info.transaction, info.meta with
    | some t, some m =>
      if m.err.isNone then
        match t.message with
        | some message =>
          (message.instructions.filterMap
            (filterWith prog message.account_keys)).filterMap Pubkey.tryFrom
        | none => []
      else []
    | some _, none => []
    | none, _ => []

/-! ## Downstream delivery discipline (tokio mpsc, as used by syncer.rs)

The update queue is a bounded tokio mpsc channel of capacity
MAX_PENDING_UPDATES. Normal events are sent with try_send, which returns an
error — and the event is dropped with a log line — when the queue is full or
closed. The final SyncTerminated is sent with a blocking send(...).await
whose result is discarded: it waits for capacity when the queue is full and
fails only when the queue is closed (all receivers gone). -/

/-- The downstream update queue: how many events it currently buffers, its
capacity, and whether it has been closed by the receiver going away. -/
structure UpdateQueue where
  buffered : Nat
  capacity : Nat
  closed : Bool

/-- tokio mpsc try_send, used for normal Delegated/Undelegated events
(syncer.rs handle_account_update and handle_transaction_update): fails —
dropping the event — when the queue is closed or already full, otherwise
enqueues. The Bool records whether the event was delivered. -/
def trySend (q : UpdateQueue) : UpdateQueue × Bool :=
  if q.closed = true ∨ q.capacity ≤ q.buffered then (q, false)
  else ({ q with buffered := q.buffered + 1 }, true)

/-- tokio mpsc blocking send, used once for the final SyncTerminated
(syncer.rs run, the send whose result run discards): on an open queue the
await suspends until the consumer frees capacity and the event is then
enqueued — a full open queue delays but never drops it; only a closed queue
makes the send fail, and that failure is discarded silently. -/
def blockingSend (q : UpdateQueue) : UpdateQueue × Bool :=
  if q.closed = true then (q, false)
  else ({ q with buffered := q.buffered + 1 }, true)

/-! ## Lemmas about the instruction decoder -/

/-- Per-instruction agreement: the source decoder step (is_undelegate followed
by the 32-byte conversion) coincides with the reference per-instruction rule. -/
theorem is_undelegate_bind_tryFrom (accounts : List (List Nat))
    (ix : CompiledInstruction) :
    (is_undelegate accounts ix).bind Pubkey.tryFrom = refInstructionEmit accounts ix := by
  have hhead : ((ix.data.take DISCRIMINATOR_LEN).headD 0) = ix.data.headD 0 := by
    cases ix.data <;> rfl
  unfold is_undelegate refInstructionEmit split_at_checked
  cases hpid : accounts[ix.program_id_index]? with
  | none => simp
  | some pid =>
    rw [Option.some_bind]
    by_cases hpeq : pid = DELEGATION_PROGRAM_PUBKEY
    · subst hpeq
      rw [if_pos rfl]
      by_cases hlen : DISCRIMINATOR_LEN ≤ ix.data.length
      · rw [if_pos hlen, Option.some_bind]
        by_cases hdisc : ix.data.headD 0 = UNDELEGATE_DISCRIMINATOR
        · rw [if_pos (show ((ix.data.take DISCRIMINATOR_LEN,
              ix.data.drop DISCRIMINATOR_LEN).1.headD 0) = UNDELEGATE_DISCRIMINATOR
              from hhead.trans hdisc),
            if_pos ⟨rfl, hlen, hdisc⟩]
          cases hA : ix.accounts[DELEGATION_RECORD_ACCOUNT_INDEX]? with
          | none => rfl
          | some idx =>
            rw [Option.some_bind]
            cases hB : accounts[idx]? with
            | none => simp [hB]
            | some bytes => simp [hB]
        · rw [if_neg (show ¬ ((ix.data.take DISCRIMINATOR_LEN,
              ix.data.drop DISCRIMINATOR_LEN).1.headD 0) = UNDELEGATE_DISCRIMINATOR
              from fun h => hdisc (hhead.symm.trans h)),
            if_neg (fun h => hdisc h.2.2), Option.none_bind]
      · rw [if_neg hlen, Option.none_bind, Option.none_bind,
          if_neg (fun h => hlen h.2.1)]
    · rw [if_neg hpeq, Option.none_bind,
        if_neg (fun h => hpeq (Option.some.injEq _ _ ▸ h.1))]

/-- Lifting the per-instruction agreement through the transaction structure:
the source decoder emits exactly the identifiers of the reference decoder. -/
theorem process_update_eq_ref (txn : SubscribeUpdateTransaction) :
    process_update txn = refProcessUpdate txn := by
  obtain ⟨slot, tr⟩ := txn
  cases tr with
  | none => rfl
  | some info =>
    obtain ⟨trr, meta⟩ := info
    cases trr with
    | none => rfl
    | some t =>
      cases meta with
      | none => rfl
      | some m =>
        obtain ⟨msg⟩ := t
        obtain ⟨merr⟩ := m
        cases merr with
        | some u => rfl
        | none =>
          cases msg with
          | none => rfl
          | some message =>
            show (message.instructions.filterMap
                (is_undelegate message.account_keys)).filterMap Pubkey.tryFrom =
              message.instructions.filterMap (refInstructionEmit message.account_keys)
            rw [List.filterMap_filterMap]
            congr 1
            funext ix
            exact is_undelegate_bind_tryFrom message.account_keys ix

/-! ## Lemmas about the dispatch loop -/

/-- Unfolding one iteration of the loop. -/
theorem runSteps_cons (s : DlpSyncer) (i : EngineInput) (rest : List EngineInput) :
    runSteps s (i :: rest) =
      ((runSteps (step s i).1 rest).1, (step s i).2 ++ (runSteps (step s i).1 rest).2) :=
  rfl

/-- Frames never change the subscription set. -/
theorem step_frame_subs (s : DlpSyncer) (r : LaserResult) :
    (step s (.frame r)).1.subscriptions = s.subscriptions := by
  cases r with
  | err e => rfl
  | ok u =>
    obtain ⟨oneof⟩ := u
    cases oneof with
    | none => rfl
    | some upd => cases upd <;> rfl

/-- The slot after one step is the input's slot-advance value when it carries
one, and the previous slot otherwise. -/
theorem step_slot (s : DlpSyncer) (i : EngineInput) :
    (step s i).1.slot = (slotOf i).getD s.slot := by
  cases i with
  | request req => cases req <;> rfl
  | frame r =>
    cases r with
    | err e => rfl
    | ok u =>
      obtain ⟨oneof⟩ := u
      cases oneof with
      | none => rfl
      | some upd => cases upd <;> rfl

/-- A step whose input is not a subscribe/unsubscribe of key k leaves the
membership of k unchanged. -/
theorem mem_step_of_mark_none (k : List Nat) (s : DlpSyncer) (i : EngineInput)
    (h : keySubMark k i = none) :
    (k ∈ (step s i).1.subscriptions ↔ k ∈ s.subscriptions) := by
  cases i with
  | frame r => rw [step_frame_subs]
  | request req =>
    cases req with
    | Subscribe r =>
      have hne : r.1 ≠ k := by
        intro he
        simp [keySubMark, he] at h
      show k ∈ insert r.1 s.subscriptions ↔ k ∈ s.subscriptions
      rw [Finset.mem_insert]
      exact or_iff_right (fun he => hne he.symm)
    | Unsubscribe r =>
      have hne : r.1 ≠ k := by
        intro he
        simp [keySubMark, he] at h
      show k ∈ s.subscriptions.erase r.1 ↔ k ∈ s.subscriptions
      rw [Finset.mem_erase]
      exact and_iff_right (fun he => hne he.symm)

/-- A step whose input subscribes key k inserts k. -/
theorem step_of_mark_true (k : List Nat) (s : DlpSyncer) (i : EngineInput)
    (h : keySubMark k i = some true) :
    (step s i).1.subscriptions = insert k s.subscriptions := by
  cases i with
  | frame r => simp [keySubMark] at h
  | request req =>
    cases req with
    | Subscribe r =>
      by_cases he : r.1 = k
      · show insert r.1 s.subscriptions = insert k s.subscriptions
        rw [he]
      · simp [keySubMark, he] at h
    | Unsubscribe r =>
      by_cases he : r.1 = k <;> simp [keySubMark, he] at h

/-- A step whose input unsubscribes key k erases k. -/
theorem step_of_mark_false (k : List Nat) (s : DlpSyncer) (i : EngineInput)
    (h : keySubMark k i = some false) :
    (step s i).1.subscriptions = s.subscriptions.erase k := by
  cases i with
  | frame r => simp [keySubMark] at h
  | request req =>
    cases req with
    | Subscribe r =>
      by_cases he : r.1 = k <;> simp [keySubMark, he] at h
    | Unsubscribe r =>
      by_cases he : r.1 = k
      · show s.subscriptions.erase r.1 = s.subscriptions.erase k
        rw [he]
      · simp [keySubMark, he] at h

/-- Membership after a run, characterized by the key's request history: k is
in the final set iff its last subscribe/unsubscribe mark is a subscribe, or
it has no marks and was in the initial set. -/
theorem mem_subs_runSteps (k : List Nat) :
    ∀ (inputs : List EngineInput) (s : DlpSyncer),
      (k ∈ (runSteps s inputs).1.subscriptions ↔
        (subTrace k inputs).getLast? = some true ∨
          (subTrace k inputs = [] ∧ k ∈ s.subscriptions)) := by
  intro inputs
  induction inputs with
  | nil => intro s; simp [runSteps, subTrace]
  | cons i rest ih =>
    intro s
    rw [runSteps_cons]
    show k ∈ (runSteps (step s i).1 rest).1.subscriptions ↔ _
    rw [ih (step s i).1]
    cases hmark : keySubMark k i with
    | none =>
      have htr : subTrace k (i :: rest) = subTrace k rest := by
        simp [subTrace, List.filterMap_cons, hmark]
      rw [htr, mem_step_of_mark_none k s i hmark]
    | some b =>
      have htr : subTrace k (i :: rest) = b :: subTrace k rest := by
        simp [subTrace, List.filterMap_cons, hmark]
      rw [htr]
      cases b with
      | true =>
        rw [step_of_mark_true k s i hmark]
        cases htr2 : subTrace k rest with
        | nil => simp [htr2, Finset.mem_insert_self]
        | cons x xs => simp [htr2, List.getLast?_cons_cons]
      | false =>
        rw [step_of_mark_false k s i hmark]
        cases htr2 : subTrace k rest with
        | nil => simp [htr2, Finset.not_mem_erase]
        | cons x xs => simp [htr2, List.getLast?_cons_cons]

/-- Every key ever inserted comes from a Pubkey, so all members of a
reachable subscription set are exactly 32 bytes long. -/
theorem subs_length_invariant :
    ∀ (inputs : List EngineInput) (s : DlpSyncer),
      (∀ k ∈ s.subscriptions, k.length = PUBKEY_LEN) →
      ∀ k ∈ (runSteps s inputs).1.subscriptions, k.length = PUBKEY_LEN := by
  intro inputs
  induction inputs with
  | nil => intro s h; exact h
  | cons i rest ih =>
    intro s h
    rw [runSteps_cons]
    refine ih (step s i).1 ?_
    cases i with
    | frame r => rw [step_frame_subs]; exact h
    | request req =>
      cases req with
      | Subscribe r =>
        intro k hk
        rcases Finset.mem_insert.mp hk with he | hk2
        · rw [he]; exact r.2
        · exact h k hk2
      | Unsubscribe r =>
        intro k hk
        exact h k (Finset.mem_of_mem_erase hk)

/-- The account handler only ever emits Delegated events. -/
theorem handle_account_update_not_terminated (subs : Finset (List Nat))
    (acc : SubscribeUpdateAccount) (u : AccountUpdate)
    (h : handle_account_update subs acc = some u) : isTerminated u = false := by
  obtain ⟨accOpt, slot⟩ := acc
  cases accOpt with
  | none => simp [handle_account_update] at h
  | some account =>
    by_cases hl : account.pubkey.length ≠ PUBKEY_LEN
    · simp [handle_account_update, hl] at h
    · by_cases hm : account.pubkey ∉ subs
      · simp [handle_account_update, hl, hm] at h
      · simp only [handle_account_update, if_neg hl, if_neg hm] at h
        cases htf : Pubkey.tryFrom account.pubkey with
        | none => rw [htf] at h; exact absurd h (by simp)
        | some record =>
          rw [htf] at h
          simp only [Option.some.injEq] at h
          rw [← h]
          rfl

/-- No loop iteration ever emits the termination event. -/
theorem step_no_terminated (s : DlpSyncer) (i : EngineInput) :
    ∀ u ∈ (step s i).2, isTerminated u = false := by
  intro u hu
  cases i with
  | request req => simp [step] at hu
  | frame r =>
    cases r with
    | err e => simp [step, handle_update] at hu
    | ok upd =>
      obtain ⟨oneof⟩ := upd
      cases oneof with
      | none => simp [step, handle_update] at hu
      | some upd2 =>
        cases upd2 with
        | account acc =>
          simp only [step, handle_update, Option.mem_toList, Option.mem_def] at hu
          exact handle_account_update_not_terminated _ _ _ hu
        | slot sl => simp [step, handle_update] at hu
        | transaction txn =>
          simp only [step, handle_update, handle_transaction_update,
            List.mem_map] at hu
          obtain ⟨r, _, hr⟩ := hu
          rw [← hr]
          rfl
        | other => simp [step, handle_update] at hu

/-- No event emitted while the loop is still running is the termination
event (stated through countP so that the statement is hypothesis-free). -/
theorem runSteps_no_terminated :
    ∀ (inputs : List EngineInput) (s : DlpSyncer),
      ((runSteps s inputs).2).countP isTerminated = 0 := by
  intro inputs
  induction inputs with
  | nil => intro s; rfl
  | cons i rest ih =>
    intro s
    rw [runSteps_cons]
    show ((step s i).2 ++ (runSteps (step s i).1 rest).2).countP isTerminated = 0
    rw [List.countP_append,
      List.countP_eq_zero.mpr (fun a ha => by simp [step_no_terminated s i a ha]),
      ih (step s i).1]

/-! ## Claim theorems -/

/-- C1: the Instruction Decoder process_update emits exactly the record
identifiers of the reference procedure: no identifiers unless the
transaction carries no execution error, per-instruction acceptance exactly
as claimed (program id resolves to the delegation program, data at least 8
bytes with first byte 3, account position 6 resolves in range, resolved
bytes exactly 32), in instruction order; moreover a transaction whose
status carries an error yields no identifiers, and a transaction all of
whose instructions are accepted yields exactly one identifier per
instruction, in order. -/
theorem process_update_matches_reference :
    (∀ txn, process_update txn = refProcessUpdate txn) ∧
    (∀ (txn : SubscribeUpdateTransaction) (info : SubscribeUpdateTransactionInfo)
        (m : TransactionStatusMeta), txn.transaction = some info →
      info.meta = some m → m.err.isSome → process_update txn = []) ∧
    (∀ (accounts : List (List Nat)) (ixs : List CompiledInstruction),
      (∀ ix ∈ ixs, (refInstructionEmit accounts ix).isSome) →
      (ixs.filterMap (refInstructionEmit accounts)).length = ixs.length) := by
  refine ⟨process_update_eq_ref, ?_, ?_⟩
  · intro txn info m h1 h2 h3
    obtain ⟨slot, tr⟩ := txn
    cases tr with
    | none => rfl
    | some info2 =>
      obtain ⟨trr, meta⟩ := info2
      have h1x : (some { transaction := trr, meta := meta } :
          Option SubscribeUpdateTransactionInfo) = some info := h1
      have hinfo := Option.some_injective _ h1x
      have hmeta : meta = some m := by rw [← hinfo] at h2; exact h2
      subst hmeta
      obtain ⟨merr⟩ := m
      cases merr with
      | none => exact absurd h3 (by decide)
      | some u => cases trr <;> rfl
  · intro accounts ixs h
    induction ixs with
    | nil => rfl
    | cons a t ih =>
      obtain ⟨b, hb⟩ := Option.isSome_iff_exists.mp (h a (List.mem_cons_self a t))
      rw [List.filterMap_cons_some hb, List.length_cons, List.length_cons,
        ih (fun ix hix => h ix (List.mem_cons_of_mem a hix))]

/-- C1 witness: a transaction with an execution error decodes to nothing, and
a two-instruction transaction whose instructions are both well-formed
undelegates decodes to exactly two identifiers. -/
theorem process_update_matches_reference_witness :
    process_update
        { slot := 1,
          transaction := some
            { transaction := some { message := none },
              meta := some { err := some () } } } = [] ∧
    (([⟨0, [0, 0, 0, 0, 0, 0, 1], [3, 0, 0, 0, 0, 0, 0, 0]⟩,
       ⟨0, [0, 0, 0, 0, 0, 0, 1], [3, 9, 9, 9, 9, 9, 9, 9]⟩] :
        List CompiledInstruction).filterMap
      (refInstructionEmit [DELEGATION_PROGRAM_PUBKEY, List.replicate 32 1])).length =
      ([⟨0, [0, 0, 0, 0, 0, 0, 1], [3, 0, 0, 0, 0, 0, 0, 0]⟩,
        ⟨0, [0, 0, 0, 0, 0, 0, 1], [3, 9, 9, 9, 9, 9, 9, 9]⟩] :
        List CompiledInstruction).length :=
  ⟨process_update_matches_reference.2.1 _ _ _ rfl rfl (by decide),
   process_update_matches_reference.2.2 _ _ (by decide)⟩

/-- C2: an account-state frame whose record identifier is currently in the
(reachable) Subscription Set, hence 32 bytes long, produces an Updated
(Delegated) event with the payload bytes and slot copied verbatim from the
frame; a frame whose identifier is not in the set, or whose identifier is
not 32 bytes long, produces no event. -/
theorem account_update_subscription_filter :
    ∀ (inputs : List EngineInput) (acc : SubscribeUpdateAccount) (account : Account),
      acc.account = some account →
      ((account.pubkey ∈ (runSteps initSyncer inputs).1.subscriptions →
          ∃ record : Pubkey, record.1 = account.pubkey ∧
            handle_account_update (runSteps initSyncer inputs).1.subscriptions acc =
              some (.Delegated record account.data acc.slot)) ∧
        (account.pubkey ∉ (runSteps initSyncer inputs).1.subscriptions ∨
            account.pubkey.length ≠ PUBKEY_LEN →
          handle_account_update (runSteps initSyncer inputs).1.subscriptions acc =
            none)) := by
  intro inputs acc account hacc
  obtain ⟨accOpt, slot⟩ := acc
  have hacc2 : accOpt = some account := hacc
  subst hacc2
  constructor
  · intro hmem
    have hlen : account.pubkey.length = PUBKEY_LEN :=
      subs_length_invariant inputs initSyncer
        (fun k hk => absurd hk (Finset.not_mem_empty k)) account.pubkey hmem
    refine ⟨⟨account.pubkey, hlen⟩, rfl, ?_⟩
    simp [handle_account_update, hlen, hmem, Pubkey.tryFrom]
  · intro hdrop
    rcases hdrop with hnm | hnl
    · by_cases hl : account.pubkey.length = PUBKEY_LEN <;>
        simp [handle_account_update, hl, hnm]
    · simp [handle_account_update, hnl]

/-- C2 witness: with the reachable set obtained by subscribing one 32-byte
key, the matching account frame produces the verbatim Delegated event and a
frame for an unsubscribed key produces nothing. -/
theorem account_update_subscription_filter_witness :
    (∃ record : Pubkey, record.1 = List.replicate 32 7 ∧
        handle_account_update
          (runSteps initSyncer
            [.request (.Subscribe ⟨List.replicate 32 7, by decide⟩)]).1.subscriptions
          { account := some { pubkey := List.replicate 32 7, data := [1, 2] },
            slot := 11 } =
          some (.Delegated record [1, 2] 11)) ∧
    handle_account_update
        (runSteps initSyncer
          [.request (.Subscribe ⟨List.replicate 32 7, by decide⟩)]).1.subscriptions
        { account := some { pubkey := List.replicate 32 9, data := [1, 2] },
          slot := 11 } = none :=
  ⟨(account_update_subscription_filter
      [.request (.Subscribe ⟨List.replicate 32 7, by decide⟩)]
      { account := some { pubkey := List.replicate 32 7, data := [1, 2] },
        slot := 11 }
      { pubkey := List.replicate 32 7, data := [1, 2] } rfl).1 (by decide),
   (account_update_subscription_filter
      [.request (.Subscribe ⟨List.replicate 32 7, by decide⟩)]
      { account := some { pubkey := List.replicate 32 9, data := [1, 2] },
        slot := 11 }
      { pubkey := List.replicate 32 9, data := [1, 2] } rfl).2 (Or.inl (by decide))⟩

/-- C3: a transaction frame makes the engine emit one Removed (Undelegated)
event, carrying the decoded identifier and the frame's slot, for every
identifier process_update decodes — for every engine state, so the emission
is independent of the Subscription Set, unlike Updated emission. -/
theorem transaction_update_unfiltered :
    (∀ (s : DlpSyncer) (txn : SubscribeUpdateTransaction),
        handle_update s (.ok { update_oneof := some (.transaction txn) }) =
          (s, (process_update txn).map
            fun record => AccountUpdate.Undelegated record txn.slot)) ∧
    (∀ (s₁ s₂ : DlpSyncer) (txn : SubscribeUpdateTransaction),
        (handle_update s₁ (.ok { update_oneof := some (.transaction txn) })).2 =
          (handle_update s₂ (.ok { update_oneof := some (.transaction txn) })).2) :=
  ⟨fun _ _ => rfl, fun _ _ _ => rfl⟩

/-- C4: after any interleaving of requests and frames, the Subscription Set
contains exactly the keys whose last subscribe/unsubscribe request was a
subscribe (subscribed and not subsequently unsubscribed); subscribing an
already-present key and unsubscribing an absent key leave the state
unchanged (no error channel exists, no duplicate state is possible). -/
theorem subscriptions_match_history :
    (∀ (inputs : List EngineInput) (k : List Nat),
        k ∈ (runSteps initSyncer inputs).1.subscriptions ↔
          (subTrace k inputs).getLast? = some true) ∧
    (∀ (s : DlpSyncer) (r : Pubkey), r.1 ∈ s.subscriptions →
        (handle_request s (.Subscribe r)).1 = s) ∧
    (∀ (s : DlpSyncer) (r : Pubkey), r.1 ∉ s.subscriptions →
        (handle_request s (.Unsubscribe r)).1 = s) := by
  refine ⟨fun inputs k => ?_, fun s r h => ?_, fun s r h => ?_⟩
  · rw [mem_subs_runSteps k inputs initSyncer]
    simp [initSyncer]
  · show { s with subscriptions := insert r.1 s.subscriptions } = s
    rw [Finset.insert_eq_self.mpr h]
  · show { s with subscriptions := s.subscriptions.erase r.1 } = s
    rw [Finset.erase_eq_of_not_mem h]

/-- C4 witness: re-subscribing a present key and unsubscribing an absent key
are both no-ops on a concrete state. -/
theorem subscriptions_match_history_witness :
    (handle_request { subscriptions := {List.replicate 32 7}, slot := 4 }
        (.Subscribe ⟨List.replicate 32 7, by decide⟩)).1 =
      { subscriptions := {List.replicate 32 7}, slot := 4 } ∧
    (handle_request { subscriptions := {List.replicate 32 7}, slot := 4 }
        (.Unsubscribe ⟨List.replicate 32 9, by decide⟩)).1 =
      { subscriptions := {List.replicate 32 7}, slot := 4 } :=
  ⟨subscriptions_match_history.2.1 _ _ (by decide),
   subscriptions_match_history.2.2 _ _ (by decide)⟩

/-- C5 counterexample: the claim that the current Slot never decreases over
any sequence of processed frames fails on the code, which assigns each
slot-advance frame's value unconditionally: after the frames with slot
values 5 then 3 the engine's slot is 3, strictly below the 5 it held. -/
theorem slot_decrease_counterexample :
    (runSteps initSyncer
      [.frame (.ok { update_oneof := some (.slot { slot := 5 }) })]).1.slot = 5 ∧
    (runSteps initSyncer
      [.frame (.ok { update_oneof := some (.slot { slot := 5 }) }),
       .frame (.ok { update_oneof := some (.slot { slot := 3 }) })]).1.slot = 3 ∧
    (3 : Nat) < 5 :=
  ⟨rfl, rfl, by decide⟩

/-- C5 (amended): the engine's slot is 0 before any slot-advance frame
arrives, only slot-advance frames change it (no other frame kind and no
request does), and it never decreases provided the slot-advance values the
feed delivers are non-decreasing and start at or above the current slot — as
the spec stipulates of the feed-supplied checkpoint counter. -/
theorem slot_monotone_under_feed :
    initSyncer.slot = 0 ∧
    (∀ (s : DlpSyncer) (i : EngineInput), slotOf i = none →
        (step s i).1.slot = s.slot) ∧
    (∀ (s : DlpSyncer) (inputs : List EngineInput),
        List.Chain' (· ≤ ·) (s.slot :: inputs.filterMap slotOf) →
        s.slot ≤ (runSteps s inputs).1.slot) := by
  refine ⟨rfl, fun s i h => ?_, fun s inputs => ?_⟩
  · rw [step_slot, h]
    rfl
  · induction inputs generalizing s with
    | nil => intro _; exact le_refl _
    | cons i rest ih =>
      intro hchain
      rw [runSteps_cons]
      show s.slot ≤ (runSteps (step s i).1 rest).1.slot
      cases hs : slotOf i with
      | none =>
        have h1 : (step s i).1.slot = s.slot := by rw [step_slot, hs]; rfl
        have hchain2 : List.Chain' (· ≤ ·)
            ((step s i).1.slot :: rest.filterMap slotOf) := by
          rw [h1]
          have : (i :: rest).filterMap slotOf = rest.filterMap slotOf := by
            simp [List.filterMap_cons, hs]
          rw [this] at hchain
          exact hchain
        have := ih (step s i).1 hchain2
        rw [h1] at this
        exact this
      | some n =>
        have h1 : (step s i).1.slot = n := by rw [step_slot, hs]; rfl
        have hfm : (i :: rest).filterMap slotOf = n :: rest.filterMap slotOf := by
          simp [List.filterMap_cons, hs]
        rw [hfm, List.chain'_cons] at hchain
        obtain ⟨hle, hchain2⟩ := hchain
        have := ih (step s i).1 (by rw [h1]; exact hchain2)
        rw [h1] at this
        exact le_trans hle this

/-- C5 witness: a subscribe request leaves the slot unchanged, and over a
non-decreasing slot-advance sequence the slot does not drop below its
start. -/
theorem slot_monotone_under_feed_witness :
    (step initSyncer (.request (.Subscribe ⟨List.replicate 32 1, by decide⟩))).1.slot =
      initSyncer.slot ∧
    initSyncer.slot ≤ (runSteps initSyncer
      [.frame (.ok { update_oneof := some (.slot { slot := 4 }) }),
       .frame (.ok { update_oneof := some (.slot { slot := 9 }) })]).1.slot :=
  ⟨slot_monotone_under_feed.2.1 _ _ (by decide),
   slot_monotone_under_feed.2.2 _ _ (by
     show List.Chain' (· ≤ ·) [0, 4, 9]
     rw [List.chain'_cons, List.chain'_cons]
     exact ⟨by decide, by decide, List.chain'_singleton 9⟩)⟩

/-- C6: a subscribe request processed by the running engine answers through
the single-use reply with the slot the engine holds at the moment the record
is inserted (insertion does not change the slot), and leaves the record
inserted; when the engine has stopped, the reply is never filled and the
call resolves to no answer. -/
theorem subscribe_reply_semantics :
    (∀ (s : DlpSyncer) (record : Pubkey),
        subscribe (some s) record =
          (some s.slot,
            some { s with subscriptions := insert record.1 s.subscriptions })) ∧
    (∀ record : Pubkey, subscribe none record = (none, none)) :=
  ⟨fun _ _ => rfl, fun _ => rfl⟩

/-- C7 counterexample: the claim says a full downstream update queue
silently drops the final Terminated event, but the final delivery is a
blocking send: on a full queue of the configured capacity that is still
open, it waits for capacity and delivers — the delivered flag is true, not
the drop the claim asserts (only normal events, sent with try_send, are
dropped when the queue is full). -/
theorem terminated_drop_counterexample :
    (blockingSend
      { buffered := MAX_PENDING_UPDATES, capacity := MAX_PENDING_UPDATES,
        closed := false }).2 = true ∧
    (trySend
      { buffered := MAX_PENDING_UPDATES, capacity := MAX_PENDING_UPDATES,
        closed := false }).2 = false :=
  ⟨rfl, rfl⟩

/-- C7 (amended): when the loop terminates, the engine emits exactly one
Terminated event, as the final event, and never while the loop is still
running; the delivery attempt is a blocking send whose result run discards:
a closed downstream queue silently drops it, while an open queue — even a
full one — delivers it (the send waits for capacity), unlike normal events,
which try_send drops when the queue is full. -/
theorem run_terminated_blocking_delivery :
    (∀ (s : DlpSyncer) (inputs : List EngineInput),
        (run s inputs).countP isTerminated = 1 ∧
        (run s inputs).getLast? = some AccountUpdate.SyncTerminated ∧
        ((runSteps s inputs).2).countP isTerminated = 0) ∧
    (∀ q : UpdateQueue, q.closed = false → (blockingSend q).2 = true) ∧
    (∀ q : UpdateQueue, q.closed = true → (blockingSend q).2 = false) ∧
    (∀ q : UpdateQueue, q.capacity ≤ q.buffered → (trySend q).2 = false) := by
  refine ⟨?_, ?_, ?_, ?_⟩
  · intro s inputs
    refine ⟨?_, ?_, runSteps_no_terminated inputs s⟩
    · show ((runSteps s inputs).2 ++ [AccountUpdate.SyncTerminated]).countP
        isTerminated = 1
      rw [List.countP_append, runSteps_no_terminated inputs s]
      rfl
    · show ((runSteps s inputs).2 ++ [AccountUpdate.SyncTerminated]).getLast? = _
      exact List.getLast?_concat _
  · intro q h
    simp [blockingSend, h]
  · intro q h
    simp [blockingSend, h]
  · intro q h
    simp [trySend, h]

/-- C7 witness: at the configured capacity, a full open queue still receives
the final blocking send, a closed queue does not, and a full queue rejects a
normal try_send. -/
theorem run_terminated_blocking_delivery_witness :
    (blockingSend
      { buffered := MAX_PENDING_UPDATES, capacity := MAX_PENDING_UPDATES,
        closed := false }).2 = true ∧
    (blockingSend
      { buffered := 0, capacity := MAX_PENDING_UPDATES, closed := true }).2 = false ∧
    (trySend
      { buffered := MAX_PENDING_UPDATES, capacity := MAX_PENDING_UPDATES,
        closed := false }).2 = false :=
  ⟨run_terminated_blocking_delivery.2.1 _ rfl,
   run_terminated_blocking_delivery.2.2.1 _ rfl,
   run_terminated_blocking_delivery.2.2.2 _ (le_refl _)⟩

/-- C8: feed establishment with a successful liveness ping fails with a
Connection error on timeout or stream closure before the first frame, fails
with a LaserStream (Feed) error when the provider surfaces an error on the
first frame, and succeeds on any first frame of any kind; every outcome of
the 5-second bounded wait yields a result, so establishment cannot hang. -/
theorem connect_establishment_outcomes :
    HEALTH_CHECK_TIMEOUT_SECS = 5 ∧
    connect none .timeout = .error (.Connection "health check timed out") ∧
    connect none .closed = .error (.Connection "stream closed before first update") ∧
    (∀ e, connect none (.error e) = .error (.LaserStream e)) ∧
    (∀ u, connect none (.frame u) = .ok ()) :=
  ⟨rfl, rfl, rfl, fun _ => rfl, fun _ => rfl⟩

/-- C9: a mid-stream frame-level transport error is absorbed: handle_update
returns the state unchanged and emits nothing, and the loop's behavior on
the remaining inputs is exactly as if the erroneous frame had not occurred. -/
theorem frame_error_recoverable :
    ∀ (s : DlpSyncer) (e : Nat) (rest : List EngineInput),
      handle_update s (.err e) = (s, []) ∧
      runSteps s (.frame (.err e) :: rest) = runSteps s rest := by
  intro s e rest
  refine ⟨rfl, ?_⟩
  rw [runSteps_cons]
  show ((runSteps s rest).1, [] ++ (runSteps s rest).2) = runSteps s rest
  simp

/-- C10 counterexample: the two implementations are not behaviorally
equivalent. A successful transaction invoking the delegation program under
its consts.rs bytes (the base58 decode of the program address, the bytes
the real ledger uses) with one well-formed undelegate instruction is
decoded by the refactored process_update to the record at account index 2,
while the legacy lib.rs filter, which compares against a different
hard-coded array, decodes nothing. -/
theorem legacy_decoder_counterexample :
    (process_update
        { slot := 7,
          transaction := some
            { transaction := some
                { message := some
                    { account_keys :=
                        [List.replicate 32 0, DELEGATION_PROGRAM_PUBKEY,
                         List.replicate 32 2],
                      instructions :=
                        [⟨1, [0, 0, 0, 0, 0, 0, 2],
                          [3, 0, 0, 0, 0, 0, 0, 0]⟩] } },
              meta := some { err := none } } }).map (fun p => p.1) =
      [List.replicate 32 2] ∧
    Legacy.undelegations
        { slot := 7,
          transaction := some
            { transaction := some
                { message := some
                    { account_keys :=
                        [List.replicate 32 0, DELEGATION_PROGRAM_PUBKEY,
                         List.replicate 32 2],
                      instructions :=
                        [⟨1, [0, 0, 0, 0, 0, 0, 2],
                          [3, 0, 0, 0, 0, 0, 0, 0]⟩] } },
              meta := some { err := none } } } = [] :=
  ⟨by decide, by decide⟩

/-- C10 (amended): the legacy and refactored account handlers are
behaviorally equivalent — lib.rs checks set membership before identifier
length, syncer.rs checks length before membership, and the results coincide
for every subscription set and frame — and the two transaction decoders
implement the same per-instruction procedure, each instantiated at its own
program identifier constant; those constants differ (first bytes 31 versus
181), so the decoders are not equivalent, as the counterexample shows. -/
theorem legacy_refactored_relation :
    (∀ (subs : Finset (List Nat)) (acc : SubscribeUpdateAccount),
        Legacy.handle_account_update subs acc = handle_account_update subs acc) ∧
    (∀ txn, process_update txn = undelegationsWith DELEGATION_PROGRAM_PUBKEY txn) ∧
    (∀ txn, Legacy.undelegations txn =
        undelegationsWith Legacy.DELEGATION_PROGRAM_PUBKEY txn) ∧
    DELEGATION_PROGRAM_PUBKEY.headD 0 = 181 ∧
    Legacy.DELEGATION_PROGRAM_PUBKEY.headD 0 = 31 := by
  refine ⟨fun subs acc => ?_, fun txn => rfl, fun txn => rfl, rfl, rfl⟩
  obtain ⟨accOpt, slot⟩ := acc
  cases accOpt with
  | none => rfl
  | some account =>
    by_cases hm : account.pubkey ∈ subs <;>
    by_cases hl : account.pubkey.length = PUBKEY_LEN <;>
      simp [Legacy.handle_account_update, handle_account_update, hm, hl]

end MagicblockSync

